import Mathlib

/-!
Verification of the encore playlist-sync engine.

The repository's source (`encore/apps/playlists/models.py`) defines the data
model: `Playlist`, `PlaylistItem`, `TrackMatch` and `SyncOperation`, together
with their field defaults, choice enumerations and database constraints.
The behavioural components (Reconciliation Engine, Fingerprint Matcher,
Sync Orchestrator, Operation Ledger) have no source representation; where a
property depends on them, the corresponding definition is modelled from the
specification and its doc comment says so.

Decimal fields are embedded as rationals, database tables as lists of rows,
and the partial unique constraints as `List.Pairwise` predicates over rows.
-/

/-- `Playlist.sync_status` choices (models.py lines 39-50). The source string
`'partial'` is rendered `partialSuccess` (its display name is "Partial
Success"); `idle` is the field's default. -/
inductive SyncStatus where
  | idle
  | queued
  | syncing
  | partialSuccess
  | failed
  | success
deriving Repr, DecidableEq

/-- `Playlist.source_status` choices (models.py lines 51-60). The source string
`'private'` is rendered `privateSource` (`private` is reserved in Lean);
`active` is the field's default. -/
inductive SourceStatus where
  | active
  | unavailable
  | deleted
  | privateSource
deriving Repr, DecidableEq

/-- `TrackMatch.match_method` choices (models.py lines 147-155). -/
inductive MatchMethod where
  | auto_fuzzy
  | exact_id
  | manual
deriving Repr, DecidableEq

/-- `SyncOperation.status` choices (models.py lines 198-208); `'partial'` is
rendered `partialSuccess` as for `SyncStatus`. -/
inductive OpStatus where
  | queued
  | running
  | completed
  | partialSuccess
  | failed
deriving Repr, DecidableEq

/-- `SyncOperation.triggered_by` choices (models.py lines 223-231). -/
inductive Trigger where
  | user
  | cron
  | retry
deriving Repr, DecidableEq

/-- A `Playlist` row (models.py lines 6-79). Nullable character fields become
`Option String`; the foreign key to the user and the primary key are `Nat`
surrogates. Timestamp bookkeeping fields are omitted: no claim mentions them. -/
structure Playlist where
  id : Nat
  user : Nat
  title : String
  youtube_playlist_id : Option String
  spotify_playlist_id : Option String
  sync_status : SyncStatus
  source_status : SourceStatus
deriving Repr, DecidableEq

/-- A `TrackMatch` row (models.py lines 127-182). `confidence_score` is a
`DecimalField(max_digits=5, decimal_places=4)` embedded as a rational. -/
structure TrackMatch where
  id : Nat
  playlist_item : Nat
  spotify_track_id : String
  spotify_track_uri : String
  confidence_score : ℚ
  match_method : MatchMethod
  is_active : Bool
deriving Repr, DecidableEq

/-- A `SyncOperation` row (models.py lines 188-238). The JSON error map is
reduced to its per-item keys; timestamps are `Nat` ticks. -/
structure SyncOperation where
  id : Nat
  playlist : Nat
  status : OpStatus
  matched_count : Nat
  unmatched_count : Nat
  error_count : Nat
  started_at : Nat
  ended_at : Option Nat
  triggered_by : Trigger
deriving Repr, DecidableEq

/-- The values the column type of `TrackMatch.confidence_score` can store:
`DecimalField(max_digits=5, decimal_places=4)` holds any signed decimal with
at most 5 significant digits and 4 decimal places; the model declares no
validator or check constraint narrowing this (models.py lines 141-146). -/
def confidence_score_storable (q : ℚ) : Prop :=
  ∃ n : ℤ, n.natAbs ≤ 99999 ∧ q = (n : ℚ) / 10000

/-- The range the specification (and the field's own help text,
"0.0000 to 1.0000") prescribes for a confidence score. -/
def inUnitInterval (q : ℚ) : Prop := 0 ≤ q ∧ q ≤ 1

/-- The partial unique constraint `unique_active_match_per_item`
(models.py lines 175-182): no two distinct rows share a `playlist_item`
while both have `is_active=True`. -/
def unique_active_match_per_item (rows : List TrackMatch) : Prop :=
  rows.Pairwise fun a b =>
    ¬(a.playlist_item = b.playlist_item ∧ a.is_active = true ∧ b.is_active = true)

/-- Number of active `TrackMatch` rows belonging to one `PlaylistItem`. -/
def activeCount (rows : List TrackMatch) (item : Nat) : Nat :=
  (rows.filter fun m => m.playlist_item == item && m.is_active).length

/-- The fields of a `TrackMatch` row other than `is_active`: activation and
deactivation are the only mutations after creation, so these must be
preserved by `activate`. -/
def historyFields (m : TrackMatch) : Nat × Nat × String × String × ℚ × MatchMethod :=
  (m.id, m.playlist_item, m.spotify_track_id, m.spotify_track_uri,
   m.confidence_score, m.match_method)

/-- Row-level effect of activating `matchId` when the row found for it is
`target`: the target row becomes active, every other row of the same
`playlist_item` becomes inactive, all other rows are untouched. -/
def activateRow (target : TrackMatch) (matchId : Nat) (m : TrackMatch) : TrackMatch :=
  if m.id = matchId then { m with is_active := true }
  else if m.playlist_item = target.playlist_item then { m with is_active := false }
  else m

/-- Modelled from the spec: the Track Match Store's `activate(matchId)`
("atomically deactivates any currently active match for the same item and
activates the given one") is absent from src; only the database constraint it
must preserve is. The whole transition is one pure function of the table. -/
def activate (rows : List TrackMatch) (matchId : Nat) : List TrackMatch :=
  match rows.find? (fun m => m.id == matchId) with
  | none => rows
  | some target => rows.map (activateRow target matchId)

/-- A new `TrackMatch` row: caller-supplied data plus the source model's
default `is_active=False` (models.py lines 156-159). -/
def newTrackMatch (id item : Nat) (tid turi : String) (conf : ℚ)
    (method : MatchMethod) : TrackMatch :=
  { id := id, playlist_item := item, spotify_track_id := tid,
    spotify_track_uri := turi, confidence_score := conf,
    match_method := method, is_active := false }

/-- Modelled from the spec: the Track Match Store's
`recordMatch(item, track, confidence, method)` "creates a new match row";
the row's `is_active` takes the model default `False`. -/
def recordMatch (rows : List TrackMatch) (id item : Nat) (tid turi : String)
    (conf : ℚ) (method : MatchMethod) : List TrackMatch :=
  newTrackMatch id item tid turi conf method :: rows

/-- The partial unique constraint `unique_youtube_per_user`
(models.py lines 73-79): rows whose `youtube_playlist_id` is non-null are
unique on `(user, youtube_playlist_id)`; null ids are outside the condition. -/
def unique_youtube_per_user (db : List Playlist) : Prop :=
  db.Pairwise fun a b =>
    ¬(a.user = b.user ∧ a.youtube_playlist_id = b.youtube_playlist_id ∧
      a.youtube_playlist_id ≠ none)

/-- Number of `Playlist` rows of one user carrying one concrete
(non-null) YouTube playlist id. -/
def playlistCountWith (db : List Playlist) (u : Nat) (y : String) : Nat :=
  (db.filter fun p => p.user == u && p.youtube_playlist_id == some y).length

/-- Concrete `TrackMatch` table used to witness the activation theorems:
two candidate rows for item 10, the first currently active. -/
def rowsW : List TrackMatch :=
  [{ id := 1, playlist_item := 10, spotify_track_id := "6rqh", spotify_track_uri := "spotify:track:6rqh",
     confidence_score := 1/2, match_method := .auto_fuzzy, is_active := true },
   { id := 2, playlist_item := 10, spotify_track_id := "7abc", spotify_track_uri := "spotify:track:7abc",
     confidence_score := 3/4, match_method := .auto_fuzzy, is_active := false }]

/-- A `PlaylistItem` row as the Reconciliation Engine reads it
(models.py lines 85-119): cached source metadata, ordinal position and the
`is_removed_from_source` flag. Keys and ownership are per playlist, so the
playlist foreign key is left implicit in a single reconciliation run. -/
structure StoredItem where
  youtube_video_id : String
  title : String
  channel_title : String
  duration_seconds : Option Nat
  thumbnail_url : Option String
  position : Nat
  is_removed_from_source : Bool
deriving Repr, DecidableEq

/-- A freshly fetched source item, the shape `SourceClient.listItems`
returns (spec section 6). -/
structure SourceItem where
  id : String
  title : String
  channel : String
  durationSeconds : Option Nat
  thumbnailUrl : Option String
  position : Nat
deriving Repr, DecidableEq

/-- Modelled from the spec: a stored row present in the source needs an
update when cached metadata or position differs, and position changes alone
still count; re-appearance of a previously source-removed item clears
`is_removed_from_source`, hence also counts as an update. -/
def needsUpdate (s : StoredItem) (c : SourceItem) : Bool :=
  s.title != c.title || s.channel_title != c.channel
  || s.duration_seconds != c.durationSeconds || s.thumbnail_url != c.thumbnailUrl
  || s.position != c.position || s.is_removed_from_source

/-- How one stored row relates to the fetched source list: update against a
source item, flag as removed, or leave unchanged. -/
inductive StoredClass where
  | upd (c : SourceItem)
  | rem
  | unch
deriving Repr, DecidableEq

/-- Modelled from the spec: per-row classification of the Reconciliation
Engine (matching is by source-video id only). Present in source: update iff
`needsUpdate`, else unchanged. Absent from source: flag removed unless
already flagged, in which case the row is left as is (unchanged). -/
def classifyStored (source : List SourceItem) (s : StoredItem) : StoredClass :=
  match source.find? (fun c => c.id == s.youtube_video_id) with
  | some c => if needsUpdate s c then .upd c else .unch
  | none => if s.is_removed_from_source then .unch else .rem

/-- The four output sets of one reconciliation run (spec section 4.1). -/
structure ReconciliationResult where
  toInsert : List SourceItem
  toUpdate : List (StoredItem × SourceItem)
  toFlagRemoved : List StoredItem
  unchanged : List StoredItem
deriving Repr, DecidableEq

/-- Modelled from the spec: `reconcile(playlist, storedItems, sourceItems)`,
the Reconciliation Engine's pure diff of the stored item list against the
freshly fetched source list; the engine has no source representation. -/
def reconcile (storedItems : List StoredItem) (sourceItems : List SourceItem) :
    ReconciliationResult :=
  { toInsert := sourceItems.filter fun c =>
      !(storedItems.any fun s => s.youtube_video_id == c.id)
  , toUpdate := storedItems.filterMap fun s =>
      match classifyStored sourceItems s with
      | .upd c => some (s, c)
      | _ => none
  , toFlagRemoved := storedItems.filter fun s =>
      match classifyStored sourceItems s with
      | .rem => true
      | _ => false
  , unchanged := storedItems.filter fun s =>
      match classifyStored sourceItems s with
      | .unch => true
      | _ => false }

/-- Source-video ids of the items to insert. -/
def insertIds (r : ReconciliationResult) : List String :=
  r.toInsert.map SourceItem.id

/-- Source-video ids of the items to update. -/
def updateIds (r : ReconciliationResult) : List String :=
  r.toUpdate.map fun p => p.1.youtube_video_id

/-- Source-video ids of the items to flag removed. -/
def removeIds (r : ReconciliationResult) : List String :=
  r.toFlagRemoved.map StoredItem.youtube_video_id

/-- Source-video ids of the unchanged items. -/
def unchangedIds (r : ReconciliationResult) : List String :=
  r.unchanged.map StoredItem.youtube_video_id

/-- No id occurs in both lists. -/
def disjointIds (xs ys : List String) : Prop := ∀ x, x ∈ xs → x ∉ ys

/-- The stored row that mirrors a source item exactly: same metadata and
position, no removal flag. A stored snapshot identical to a source snapshot
is the image of the source list under this map. -/
def toStoredItem (c : SourceItem) : StoredItem :=
  { youtube_video_id := c.id, title := c.title, channel_title := c.channel,
    duration_seconds := c.durationSeconds, thumbnail_url := c.thumbnailUrl,
    position := c.position, is_removed_from_source := false }

/-- Concrete stored snapshot used to witness the reconciliation theorems. -/
def storedW : List StoredItem :=
  [{ youtube_video_id := "v1", title := "Song A", channel_title := "ChanA",
     duration_seconds := some 200, thumbnail_url := none, position := 0,
     is_removed_from_source := false }]

/-- Concrete source snapshot used to witness the reconciliation theorems:
item v1 unchanged, item v2 new. -/
def sourceW : List SourceItem :=
  [{ id := "v1", title := "Song A", channel := "ChanA",
     durationSeconds := some 200, thumbnailUrl := none, position := 0 },
   { id := "v2", title := "Song B", channel := "ChanB",
     durationSeconds := some 180, thumbnailUrl := none, position := 1 }]

/-- Concrete `Playlist` table used to witness the uniqueness theorem: one
row whose YouTube playlist id is set. -/
def dbW : List Playlist :=
  [{ id := 1, user := 1, title := "Road Trip", youtube_playlist_id := some "PLabc",
     spotify_playlist_id := none, sync_status := .idle, source_status := .active }]

/-- Concrete `Playlist` table used to witness the null-exemption: two rows of
the same user, both with a null YouTube playlist id. -/
def dbNullW : List Playlist :=
  [{ id := 1, user := 1, title := "Mix A", youtube_playlist_id := none,
     spotify_playlist_id := none, sync_status := .idle, source_status := .active },
   { id := 2, user := 1, title := "Mix B", youtube_playlist_id := none,
     spotify_playlist_id := none, sync_status := .idle, source_status := .active }]

/-- Modelled from the spec: the Sync Orchestrator's completion mapping (the
orchestration state machine has no source representation). A platform-wide
failure makes the operation `failed`; otherwise zero errors make it
`completed`/`success`, an error count below the total processed makes it
`partial`, and an error count reaching the total makes it `failed`. The
first component is the `SyncOperation.status`, the second the
`Playlist.sync_status` written with it. -/
def finishStatus (errorCount totalProcessed : Nat) (platformFailure : Bool) :
    OpStatus × SyncStatus :=
  if platformFailure then (.failed, .failed)
  else if errorCount = 0 then (.completed, .success)
  else if errorCount < totalProcessed then (.partialSuccess, .partialSuccess)
  else (.failed, .failed)

/-- Modelled from the spec: the two points at which the Orchestrator writes
`Playlist.sync_status`: on `queued → running` it writes `syncing`; at the
terminal transition it writes the completion mapping's playlist status. -/
inductive OrchEvent where
  | start
  | finish (errorCount totalProcessed : Nat) (platformFailure : Bool)
deriving Repr, DecidableEq

/-- The `sync_status` value one Orchestrator event writes. -/
def orchStatus : OrchEvent → SyncStatus
  | .start => .syncing
  | .finish e t pf => (finishStatus e t pf).2

/-- One Orchestrator write applied to a playlist row. -/
def applyOrch (p : Playlist) (ev : OrchEvent) : Playlist :=
  { p with sync_status := orchStatus ev }

/-- A `Playlist` row created without explicit statuses: `sync_status`
defaults to `'idle'` and `source_status` to `'active'`
(models.py lines 39-60). -/
def mkPlaylist (id user : Nat) (title : String) (yt sp : Option String) : Playlist :=
  { id := id, user := user, title := title, youtube_playlist_id := yt,
    spotify_playlist_id := sp, sync_status := .idle, source_status := .active }

/-- Modelled from the spec: the Operation Ledger's retry rule (absent from
src, which only declares the `'retry'` trigger choice): a `retry` trigger is
permitted exactly when the most recent operation for the playlist is
`failed` or `partial` and is not still `running`. The history list is
ordered most recent first, matching the model's `-started_at` ordering. -/
def retryPermitted (history : List SyncOperation) : Bool :=
  match history.head? with
  | none => false
  | some op =>
    (op.status == .failed || op.status == .partialSuccess)
      && !(op.status == .running)

/-- A destination-track candidate as `DestinationClient.searchCandidates`
returns it (spec section 6), plus the free-form description/metadata text in
which an embedded source-video id is looked for. -/
structure Candidate where
  id : String
  uri : String
  title : String
  artists : String
  album : String
  durationSeconds : Nat
  description : String
deriving Repr, DecidableEq

/-- The source-item metadata the Fingerprint Matcher receives. -/
structure ItemMeta where
  youtube_video_id : String
  title : String
  channel : String
  durationSeconds : Nat
deriving Repr, DecidableEq

/-- The Matcher's result: chosen track, confidence and method. -/
structure MatchResult where
  track : Candidate
  confidence : ℚ
  method : MatchMethod
deriving Repr, DecidableEq

/-- Whether the first character list is a prefix of the second. -/
def isPrefixChars : List Char → List Char → Bool
  | [], _ => true
  | _ :: _, [] => false
  | a :: as, b :: bs => a == b && isPrefixChars as bs

/-- Whether `needle` occurs verbatim anywhere inside the second list. -/
def containsChars (needle : List Char) : List Char → Bool
  | [] => isPrefixChars needle []
  | b :: bs => isPrefixChars needle (b :: bs) || containsChars needle bs

/-- Whether a candidate's description/metadata embeds the source-video id
verbatim. -/
def embedsSourceId (item : ItemMeta) (c : Candidate) : Bool :=
  containsChars item.youtube_video_id.data c.description.data

/-- Absolute duration gap between the source item and a candidate, used by
the fuzzy tie-break. -/
def durationDelta (item : ItemMeta) (c : Candidate) : Nat :=
  max item.durationSeconds c.durationSeconds
    - min item.durationSeconds c.durationSeconds

/-- Modelled from the spec: the strict preference order among fuzzy
candidates — higher score first, ties broken by smaller duration delta, then
lexicographic candidate id (deterministic choice). -/
def fuzzyBetter (score : ItemMeta → Candidate → ℚ) (item : ItemMeta)
    (a b : Candidate) : Bool :=
  decide (score item b < score item a)
  || (decide (score item a = score item b)
      && (decide (durationDelta item a < durationDelta item b)
          || (decide (durationDelta item a = durationDelta item b)
              && decide (a.id < b.id))))

/-- Best fuzzy candidate of a list under `fuzzyBetter`. -/
def bestFuzzy (score : ItemMeta → Candidate → ℚ) (item : ItemMeta) :
    List Candidate → Option Candidate
  | [] => none
  | c :: cs =>
    match bestFuzzy score item cs with
    | none => some c
    | some b => if fuzzyBetter score item c b then some c else some b

/-- Modelled from the spec: `findBestMatch(item, candidateTracks)` (the
Fingerprint Matcher has no source representation). The exact-identifier
strategy is checked first: any candidate embedding the source-video id is
selected with method `exact_id` and confidence 1. Only otherwise is the
fuzzy strategy consulted — it is abstracted by the `score` parameter, the
source fixing no fuzzy algorithm — subject to the acceptance `threshold`. -/
def findBestMatch (score : ItemMeta → Candidate → ℚ) (threshold : ℚ)
    (item : ItemMeta) (cands : List Candidate) : Option MatchResult :=
  match cands.find? (fun c => embedsSourceId item c) with
  | some c => some { track := c, confidence := 1, method := .exact_id }
  | none =>
    match bestFuzzy score item cands with
    | some b =>
      if threshold ≤ score item b then
        some { track := b, confidence := score item b, method := .auto_fuzzy }
      else none
    | none => none

/-- Default acceptance threshold for the fuzzy strategy (spec section 4.2). -/
def defaultThreshold : ℚ := 55 / 100

/-- Concrete source item used to witness the matcher theorem. -/
def itemW : ItemMeta :=
  { youtube_video_id := "dQw4w9WgXcQ", title := "Song A", channel := "ChanA",
    durationSeconds := 212 }

/-- Concrete candidate list used to witness the matcher theorem: the second
candidate's description embeds the source-video id. -/
def candsW : List Candidate :=
  [{ id := "t1", uri := "spotify:track:t1", title := "Song A", artists := "ArtistA",
     album := "AlbumA", durationSeconds := 210, description := "no id here" },
   { id := "t2", uri := "spotify:track:t2", title := "Song A (Official)",
     artists := "ArtistA", album := "AlbumA", durationSeconds := 212,
     description := "taken from video dQw4w9WgXcQ on yt" }]

/-- Concrete ledger history used to witness the retry theorem: a single,
most recent, failed operation. -/
def opFailedW : SyncOperation :=
  { id := 1, playlist := 1, status := .failed, matched_count := 0,
    unmatched_count := 0, error_count := 3, started_at := 100,
    ended_at := some 110, triggered_by := .user }

/-- A filtered list all of whose members are pairwise incompatible under a
pairwise relation of the original list has at most one element. -/
theorem filter_length_le_one_of_pairwise {α : Type} {R : α → α → Prop}
    {l : List α} (hl : l.Pairwise R) (p : α → Bool)
    (h : ∀ a b, p a = true → p b = true → R a b → False) :
    (l.filter p).length ≤ 1 := by
  have hf : (l.filter p).Pairwise R := hl.sublist (List.filter_sublist l)
  cases hfp : l.filter p with
  | nil => simp
  | cons a t =>
    cases t with
    | nil => simp
    | cons b t2 =>
      exfalso
      rw [hfp] at hf
      have hab : R a b := (List.pairwise_cons.mp hf).1 b (by simp)
      have ha : a ∈ l.filter p := by rw [hfp]; simp
      have hb : b ∈ l.filter p := by rw [hfp]; simp
      exact h a b (List.of_mem_filter ha) (List.of_mem_filter hb) hab

theorem activeCount_le_one_of_constraint (rows : List TrackMatch)
    (h : unique_active_match_per_item rows) (item : Nat) :
    activeCount rows item ≤ 1 := by
  unfold activeCount
  apply filter_length_le_one_of_pairwise h
  intro a b ha hb hR
  simp only [Bool.and_eq_true, beq_iff_eq] at ha hb
  exact hR ⟨ha.1.trans hb.1.symm, ha.2, hb.2⟩

theorem activateRow_playlist_item (t : TrackMatch) (i : Nat) (m : TrackMatch) :
    (activateRow t i m).playlist_item = m.playlist_item := by
  unfold activateRow
  split
  · rfl
  · split <;> rfl

theorem activateRow_historyFields (t : TrackMatch) (i : Nat) (m : TrackMatch) :
    historyFields (activateRow t i m) = historyFields m := by
  unfold activateRow
  split
  · rfl
  · split <;> rfl

theorem activateRow_is_active_of_id (t : TrackMatch) {i : Nat} {m : TrackMatch}
    (h : m.id = i) : (activateRow t i m).is_active = true := by
  simp [activateRow, h]

theorem activateRow_is_active_of_item {t : TrackMatch} {i : Nat} {m : TrackMatch}
    (h : m.id ≠ i) (h2 : m.playlist_item = t.playlist_item) :
    (activateRow t i m).is_active = false := by
  simp [activateRow, h, h2]

theorem activateRow_is_active_of_other {t : TrackMatch} {i : Nat} {m : TrackMatch}
    (h : m.id ≠ i) (h2 : m.playlist_item ≠ t.playlist_item) :
    (activateRow t i m).is_active = m.is_active := by
  simp [activateRow, h, h2]

theorem activate_preserves_constraint (rows : List TrackMatch) (matchId : Nat)
    (hinv : unique_active_match_per_item rows)
    (hids : (rows.map TrackMatch.id).Nodup) :
    unique_active_match_per_item (activate rows matchId) := by
  unfold activate
  cases hfind : rows.find? (fun m => m.id == matchId) with
  | none => exact hinv
  | some target =>
    have htmem : target ∈ rows := List.mem_of_find?_eq_some hfind
    have htid : target.id = matchId := by
      have := List.find?_some hfind
      simpa using this
    have hinj : ∀ x ∈ rows, ∀ y ∈ rows, x.id = y.id → x = y := by
      intro x hx y hy hxy
      exact List.inj_on_of_nodup_map hids hx hy hxy
    have hids' : rows.Pairwise (fun a b => a.id ≠ b.id) := List.pairwise_map.mp hids
    unfold unique_active_match_per_item
    apply List.pairwise_map.mpr
    apply List.Pairwise.imp_of_mem ?_ (hinv.and hids')
    intro a b ha hb hR
    rcases hR with ⟨hRab, hidab⟩
    rintro ⟨hitem, hactA, hactB⟩
    rw [activateRow_playlist_item, activateRow_playlist_item] at hitem
    by_cases haid : a.id = matchId
    · by_cases hbid : b.id = matchId
      · exact hidab (haid.trans hbid.symm)
      · have ha_t : a = target := hinj a ha target htmem (by rw [haid, htid])
        have hbt : b.playlist_item = target.playlist_item := by rw [← hitem, ha_t]
        rw [activateRow_is_active_of_item hbid hbt] at hactB
        exact Bool.false_ne_true hactB
    · by_cases hbid : b.id = matchId
      · have hb_t : b = target := hinj b hb target htmem (by rw [hbid, htid])
        have hat : a.playlist_item = target.playlist_item := by rw [hitem, hb_t]
        rw [activateRow_is_active_of_item haid hat] at hactA
        exact Bool.false_ne_true hactA
      · by_cases hat : a.playlist_item = target.playlist_item
        · rw [activateRow_is_active_of_item haid hat] at hactA
          exact Bool.false_ne_true hactA
        · have hbt : b.playlist_item ≠ target.playlist_item := by
            rw [← hitem]; exact hat
          rw [activateRow_is_active_of_other haid hat] at hactA
          rw [activateRow_is_active_of_other hbid hbt] at hactB
          exact hRab ⟨hitem, hactA, hactB⟩

theorem activate_preserves_historyFields (rows : List TrackMatch) (matchId : Nat) :
    (activate rows matchId).map historyFields = rows.map historyFields := by
  unfold activate
  cases hfind : rows.find? (fun m => m.id == matchId) with
  | none => rfl
  | some target =>
    rw [List.map_map]
    apply List.map_congr_left
    intro m _
    exact activateRow_historyFields target matchId m

/-- Claim C1: under the database constraint `unique_active_match_per_item`,
every `PlaylistItem` has 0 or 1 active `TrackMatch` rows, both before and
after any activation; `activate` preserves the constraint and keeps every
row's identity and data (only `is_active` flips), so prior matches are
retained as history rather than deleted. -/
theorem C1_at_most_one_active_match (rows : List TrackMatch) (matchId : Nat)
    (hinv : unique_active_match_per_item rows)
    (hids : (rows.map TrackMatch.id).Nodup) :
    (∀ item, activeCount rows item ≤ 1)
    ∧ unique_active_match_per_item (activate rows matchId)
    ∧ (∀ item, activeCount (activate rows matchId) item ≤ 1)
    ∧ (activate rows matchId).map historyFields = rows.map historyFields := by
  have hpres := activate_preserves_constraint rows matchId hinv hids
  exact ⟨fun item => activeCount_le_one_of_constraint rows hinv item, hpres,
    fun item => activeCount_le_one_of_constraint _ hpres item,
    activate_preserves_historyFields rows matchId⟩

/-- Claim C1 witness: activating row 2 in the concrete two-row table leaves
item 10 with at most one active match. -/
theorem C1_at_most_one_active_match_witness :
    activeCount (activate rowsW 2) 10 ≤ 1 :=
  (C1_at_most_one_active_match rowsW 2
    (by unfold unique_active_match_per_item rowsW; simp) (by decide)).2.2.1 10

/-- Claim C9: a newly created `TrackMatch` is inactive (`is_active=False` is
the model default), so recording a match via creation alone changes no item's
active-match count and preserves the at-most-one-active constraint;
activation is a separate step. -/
theorem C9_new_match_inactive (rows : List TrackMatch) (id item : Nat)
    (tid turi : String) (conf : ℚ) (method : MatchMethod) :
    (newTrackMatch id item tid turi conf method).is_active = false
    ∧ (∀ item', activeCount (recordMatch rows id item tid turi conf method) item'
        = activeCount rows item')
    ∧ (unique_active_match_per_item rows →
        unique_active_match_per_item (recordMatch rows id item tid turi conf method)) := by
  refine ⟨rfl, ?_, ?_⟩
  · intro item'
    unfold activeCount recordMatch newTrackMatch
    simp [List.filter_cons]
  · intro h
    unfold unique_active_match_per_item recordMatch
    refine List.Pairwise.cons ?_ h
    intro b _
    rintro ⟨_, hact, _⟩
    rw [show (newTrackMatch id item tid turi conf method).is_active = false from rfl] at hact
    exact Bool.false_ne_true hact

/-- Claim C9 witness: appending a freshly recorded (hence inactive) candidate
row to the concrete two-row table keeps the active-uniqueness constraint. -/
theorem C9_new_match_inactive_witness :
    unique_active_match_per_item (recordMatch rowsW 3 10 "8def" "spotify:track:8def" 0 .auto_fuzzy) :=
  (C9_new_match_inactive rowsW 3 10 "8def" "spotify:track:8def" 0 .auto_fuzzy).2.2
    (by unfold unique_active_match_per_item rowsW; simp)

/-- Claim C3 (code bug): the column type of `TrackMatch.confidence_score`
(`DecimalField(max_digits=5, decimal_places=4)`, with no validator or check
constraint) stores the value 2, which lies outside the [0,1] range that the
claim and the field's own help text prescribe. -/
theorem C3_confidence_score_unbounded :
    confidence_score_storable 2 ∧ ¬ inUnitInterval 2 := by
  constructor
  · exact ⟨20000, by norm_num, by norm_num⟩
  · intro h
    unfold inUnitInterval at h
    exact absurd h.2 (by norm_num)

/-- Claim C7: under the partial unique constraint `unique_youtube_per_user`,
at most one `Playlist` row of a given user carries a given non-null YouTube
playlist id; rows whose YouTube playlist id is null are exempt — any table
consisting of null-id rows satisfies the constraint. -/
theorem C7_unique_youtube_playlist :
    (∀ db u y, unique_youtube_per_user db → playlistCountWith db u y ≤ 1)
    ∧ (∀ db : List Playlist, (∀ p ∈ db, p.youtube_playlist_id = none) →
        unique_youtube_per_user db) := by
  constructor
  · intro db u y h
    unfold playlistCountWith
    apply filter_length_le_one_of_pairwise h
    intro a b ha hb hR
    simp only [Bool.and_eq_true, beq_iff_eq] at ha hb
    exact hR ⟨ha.1.trans hb.1.symm, ha.2.trans hb.2.symm, by simp [ha.2]⟩
  · intro db hnull
    unfold unique_youtube_per_user
    induction db with
    | nil => exact List.Pairwise.nil
    | cons p rest ih =>
      refine List.Pairwise.cons ?_ (ih fun q hq => hnull q (by simp [hq]))
      intro b _
      rintro ⟨_, _, hne⟩
      exact hne (hnull p (by simp))

/-- Claim C7 witness: the one-row table with a set YouTube id has count ≤ 1
for its (user, id) pair, and the two-row null-id table satisfies the
constraint. -/
theorem C7_unique_youtube_playlist_witness :
    playlistCountWith dbW 1 "PLabc" ≤ 1 ∧ unique_youtube_per_user dbNullW :=
  ⟨C7_unique_youtube_playlist.1 dbW 1 "PLabc"
      (by unfold unique_youtube_per_user dbW; simp),
   C7_unique_youtube_playlist.2 dbNullW (by decide)⟩

theorem classifyStored_self (source : List SourceItem)
    (hnd : (source.map SourceItem.id).Nodup) :
    ∀ c ∈ source, classifyStored source (toStoredItem c) = .unch := by
  intro c hc
  unfold classifyStored
  have hsome : (source.find? fun c' => c'.id == (toStoredItem c).youtube_video_id).isSome :=
    List.find?_isSome.mpr ⟨c, hc, by simp [toStoredItem]⟩
  rcases Option.isSome_iff_exists.mp hsome with ⟨c', hc'⟩
  rw [hc']
  have hc'src : c' ∈ source := List.mem_of_find?_eq_some hc'
  have hc'id : c'.id = c.id := by
    have := List.find?_some hc'
    simpa [toStoredItem] using this
  have hcc : c' = c := List.inj_on_of_nodup_map hnd hc'src hc hc'id
  subst hcc
  have hnu : needsUpdate (toStoredItem c') c' = false := by
    simp [needsUpdate, toStoredItem]
  simp [hnu]

/-- Claim C6: reconciling a stored snapshot that is identical to the source
snapshot (same items, metadata and positions, no removal flags) produces
empty insert, update and remove sets, and classifies every item unchanged. -/
theorem C6_reconcile_idempotent (source : List SourceItem)
    (hnd : (source.map SourceItem.id).Nodup) :
    reconcile (source.map toStoredItem) source =
      { toInsert := [], toUpdate := [], toFlagRemoved := [],
        unchanged := source.map toStoredItem } := by
  have hcl := classifyStored_self source hnd
  unfold reconcile
  simp only [ReconciliationResult.mk.injEq]
  refine ⟨?_, ?_, ?_, ?_⟩
  · rw [List.filter_eq_nil_iff]
    intro c hc
    have : (source.map toStoredItem).any (fun s => s.youtube_video_id == c.id) = true :=
      List.any_eq_true.mpr ⟨toStoredItem c, List.mem_map.mpr ⟨c, hc, rfl⟩,
        by simp [toStoredItem]⟩
    simp [this]
  · rw [List.filterMap_eq_nil_iff]
    intro s hs
    rcases List.mem_map.mp hs with ⟨c, hc, rfl⟩
    rw [hcl c hc]
  · rw [List.filter_eq_nil_iff]
    intro s hs
    rcases List.mem_map.mp hs with ⟨c, hc, rfl⟩
    rw [hcl c hc]
    simp
  · rw [List.filter_eq_self]
    intro s hs
    rcases List.mem_map.mp hs with ⟨c, hc, rfl⟩
    rw [hcl c hc]

/-- Claim C6 witness: on the concrete two-item source snapshot, reconciling
its own stored image yields no inserts, updates or removals. -/
theorem C6_reconcile_idempotent_witness :
    reconcile (sourceW.map toStoredItem) sourceW =
      { toInsert := [], toUpdate := [], toFlagRemoved := [],
        unchanged := sourceW.map toStoredItem } :=
  C6_reconcile_idempotent sourceW (by decide)

theorem mem_insertIds_iff (stored : List StoredItem) (source : List SourceItem)
    (x : String) :
    x ∈ insertIds (reconcile stored source) ↔
      x ∈ source.map SourceItem.id ∧ x ∉ stored.map StoredItem.youtube_video_id := by
  unfold insertIds reconcile
  constructor
  · intro hx
    rcases List.mem_map.mp hx with ⟨c, hc, rfl⟩
    rcases List.mem_filter.mp hc with ⟨hcsrc, hcond⟩
    refine ⟨List.mem_map.mpr ⟨c, hcsrc, rfl⟩, ?_⟩
    intro hxs
    rcases List.mem_map.mp hxs with ⟨s, hs, hseq⟩
    rw [Bool.not_eq_true'] at hcond
    have hany : stored.any (fun s => s.youtube_video_id == c.id) = true :=
      List.any_eq_true.mpr ⟨s, hs, by simp [hseq]⟩
    rw [hcond] at hany
    exact Bool.false_ne_true hany
  · rintro ⟨hxsrc, hxst⟩
    rcases List.mem_map.mp hxsrc with ⟨c, hc, rfl⟩
    refine List.mem_map.mpr ⟨c, List.mem_filter.mpr ⟨hc, ?_⟩, rfl⟩
    rw [Bool.not_eq_true']
    cases hany : stored.any (fun s => s.youtube_video_id == c.id) with
    | false => rfl
    | true =>
      exfalso
      rcases List.any_eq_true.mp hany with ⟨s, hs, hbeq⟩
      exact hxst (List.mem_map.mpr ⟨s, hs, eq_of_beq hbeq⟩)

theorem mem_updateIds_iff (stored : List StoredItem) (source : List SourceItem)
    (x : String) :
    x ∈ updateIds (reconcile stored source) ↔
      ∃ s ∈ stored, s.youtube_video_id = x ∧
        ∃ c, classifyStored source s = .upd c := by
  unfold updateIds reconcile
  constructor
  · intro hx
    rcases List.mem_map.mp hx with ⟨⟨s, c⟩, hmem, hid⟩
    rcases List.mem_filterMap.mp hmem with ⟨s', hs', hf⟩
    cases hcl : classifyStored source s' with
    | upd c' =>
      rw [hcl] at hf
      simp only [Option.some.injEq, Prod.mk.injEq] at hf
      obtain ⟨rfl, rfl⟩ := hf
      exact ⟨s', hs', hid, c', hcl⟩
    | rem =>
      rw [hcl] at hf
      exact absurd hf (by simp)
    | unch =>
      rw [hcl] at hf
      exact absurd hf (by simp)
  · rintro ⟨s, hs, rfl, c, hcl⟩
    exact List.mem_map.mpr ⟨(s, c), List.mem_filterMap.mpr ⟨s, hs, by rw [hcl]⟩, rfl⟩

theorem mem_removeIds_iff (stored : List StoredItem) (source : List SourceItem)
    (x : String) :
    x ∈ removeIds (reconcile stored source) ↔
      ∃ s ∈ stored, s.youtube_video_id = x ∧ classifyStored source s = .rem := by
  unfold removeIds reconcile
  constructor
  · intro hx
    rcases List.mem_map.mp hx with ⟨s, hmem, rfl⟩
    rcases List.mem_filter.mp hmem with ⟨hs, hcond⟩
    refine ⟨s, hs, rfl, ?_⟩
    cases hcl : classifyStored source s with
    | upd c => rw [hcl] at hcond; simp at hcond
    | rem => rfl
    | unch => rw [hcl] at hcond; simp at hcond
  · rintro ⟨s, hs, rfl, hcl⟩
    exact List.mem_map.mpr ⟨s, List.mem_filter.mpr ⟨hs, by rw [hcl]⟩, rfl⟩

theorem mem_unchangedIds_iff (stored : List StoredItem) (source : List SourceItem)
    (x : String) :
    x ∈ unchangedIds (reconcile stored source) ↔
      ∃ s ∈ stored, s.youtube_video_id = x ∧ classifyStored source s = .unch := by
  unfold unchangedIds reconcile
  constructor
  · intro hx
    rcases List.mem_map.mp hx with ⟨s, hmem, rfl⟩
    rcases List.mem_filter.mp hmem with ⟨hs, hcond⟩
    refine ⟨s, hs, rfl, ?_⟩
    cases hcl : classifyStored source s with
    | upd c => rw [hcl] at hcond; simp at hcond
    | rem => rw [hcl] at hcond; simp at hcond
    | unch => rfl
  · rintro ⟨s, hs, rfl, hcl⟩
    exact List.mem_map.mpr ⟨s, List.mem_filter.mpr ⟨hs, by rw [hcl]⟩, rfl⟩

/-- Claim C2: the four output id sets of `reconcile` are pairwise disjoint
and their union is exactly the union of the stored and source item ids,
provided the stored items are (as the database's `unique_together` enforces)
unique on their source-video id. -/
theorem C2_reconcile_partition (stored : List StoredItem) (source : List SourceItem)
    (hnd : (stored.map StoredItem.youtube_video_id).Nodup) :
    disjointIds (insertIds (reconcile stored source)) (updateIds (reconcile stored source))
    ∧ disjointIds (insertIds (reconcile stored source)) (removeIds (reconcile stored source))
    ∧ disjointIds (insertIds (reconcile stored source)) (unchangedIds (reconcile stored source))
    ∧ disjointIds (updateIds (reconcile stored source)) (removeIds (reconcile stored source))
    ∧ disjointIds (updateIds (reconcile stored source)) (unchangedIds (reconcile stored source))
    ∧ disjointIds (removeIds (reconcile stored source)) (unchangedIds (reconcile stored source))
    ∧ ∀ x, (x ∈ insertIds (reconcile stored source) ∨ x ∈ updateIds (reconcile stored source)
        ∨ x ∈ removeIds (reconcile stored source) ∨ x ∈ unchangedIds (reconcile stored source))
      ↔ (x ∈ stored.map StoredItem.youtube_video_id ∨ x ∈ source.map SourceItem.id) := by
  have hinj : ∀ a ∈ stored, ∀ b ∈ stored, a.youtube_video_id = b.youtube_video_id → a = b :=
    fun a ha b hb => List.inj_on_of_nodup_map hnd ha hb
  refine ⟨?_, ?_, ?_, ?_, ?_, ?_, ?_⟩
  · intro x hxi hxu
    rcases (mem_insertIds_iff stored source x).mp hxi with ⟨_, hnst⟩
    rcases (mem_updateIds_iff stored source x).mp hxu with ⟨s, hs, hid, _⟩
    exact hnst (List.mem_map.mpr ⟨s, hs, hid⟩)
  · intro x hxi hxr
    rcases (mem_insertIds_iff stored source x).mp hxi with ⟨_, hnst⟩
    rcases (mem_removeIds_iff stored source x).mp hxr with ⟨s, hs, hid, _⟩
    exact hnst (List.mem_map.mpr ⟨s, hs, hid⟩)
  · intro x hxi hxn
    rcases (mem_insertIds_iff stored source x).mp hxi with ⟨_, hnst⟩
    rcases (mem_unchangedIds_iff stored source x).mp hxn with ⟨s, hs, hid, _⟩
    exact hnst (List.mem_map.mpr ⟨s, hs, hid⟩)
  · intro x hxu hxr
    rcases (mem_updateIds_iff stored source x).mp hxu with ⟨s1, hs1, hid1, c, hcl1⟩
    rcases (mem_removeIds_iff stored source x).mp hxr with ⟨s2, hs2, hid2, hcl2⟩
    have hss : s1 = s2 := hinj s1 hs1 s2 hs2 (by rw [hid1, hid2])
    rw [hss] at hcl1
    rw [hcl2] at hcl1
    exact absurd hcl1 (by simp)
  · intro x hxu hxn
    rcases (mem_updateIds_iff stored source x).mp hxu with ⟨s1, hs1, hid1, c, hcl1⟩
    rcases (mem_unchangedIds_iff stored source x).mp hxn with ⟨s2, hs2, hid2, hcl2⟩
    have hss : s1 = s2 := hinj s1 hs1 s2 hs2 (by rw [hid1, hid2])
    rw [hss] at hcl1
    rw [hcl2] at hcl1
    exact absurd hcl1 (by simp)
  · intro x hxr hxn
    rcases (mem_removeIds_iff stored source x).mp hxr with ⟨s1, hs1, hid1, hcl1⟩
    rcases (mem_unchangedIds_iff stored source x).mp hxn with ⟨s2, hs2, hid2, hcl2⟩
    have hss : s1 = s2 := hinj s1 hs1 s2 hs2 (by rw [hid1, hid2])
    rw [hss] at hcl1
    rw [hcl2] at hcl1
    exact absurd hcl1 (by simp)
  · intro x
    constructor
    · intro hx
      rcases hx with hx | hx | hx | hx
      · exact Or.inr ((mem_insertIds_iff stored source x).mp hx).1
      · rcases (mem_updateIds_iff stored source x).mp hx with ⟨s, hs, hid, _⟩
        exact Or.inl (List.mem_map.mpr ⟨s, hs, hid⟩)
      · rcases (mem_removeIds_iff stored source x).mp hx with ⟨s, hs, hid, _⟩
        exact Or.inl (List.mem_map.mpr ⟨s, hs, hid⟩)
      · rcases (mem_unchangedIds_iff stored source x).mp hx with ⟨s, hs, hid, _⟩
        exact Or.inl (List.mem_map.mpr ⟨s, hs, hid⟩)
    · intro hx
      by_cases hst : x ∈ stored.map StoredItem.youtube_video_id
      · rcases List.mem_map.mp hst with ⟨s, hs, rfl⟩
        cases hcl : classifyStored source s with
        | upd c =>
          exact Or.inr (Or.inl ((mem_updateIds_iff stored source _).mpr ⟨s, hs, rfl, c, hcl⟩))
        | rem =>
          exact Or.inr (Or.inr (Or.inl ((mem_removeIds_iff stored source _).mpr ⟨s, hs, rfl, hcl⟩)))
        | unch =>
          exact Or.inr (Or.inr (Or.inr ((mem_unchangedIds_iff stored source _).mpr ⟨s, hs, rfl, hcl⟩)))
      · have hsrc : x ∈ source.map SourceItem.id := by
          rcases hx with h | h
          · exact absurd h hst
          · exact h
        exact Or.inl ((mem_insertIds_iff stored source x).mpr ⟨hsrc, hst⟩)

/-- Claim C2 witness: on the concrete snapshots, id v2 is classified insert
and therefore not update. -/
theorem C2_reconcile_partition_witness :
    "v2" ∉ updateIds (reconcile storedW sourceW) :=
  (C2_reconcile_partition storedW sourceW (by decide)).1 "v2" (by decide)

/-- Claim C4: the terminal status pair of a completing sync operation is
determined by the error count — zero errors give (`completed`, `success`),
an error count strictly between zero and the total gives (`partial`,
`partial`), a positive error count reaching the total gives (`failed`,
`failed`), and a platform-wide failure gives (`failed`, `failed`). -/
theorem C4_completion_status (e t : Nat) :
    (finishStatus e t false = (.completed, .success) ↔ e = 0)
    ∧ (0 < e → e < t → finishStatus e t false = (.partialSuccess, .partialSuccess))
    ∧ (0 < e → e = t → finishStatus e t false = (.failed, .failed))
    ∧ finishStatus e t true = (.failed, .failed) := by
  refine ⟨?_, ?_, ?_, ?_⟩
  · constructor
    · intro h
      by_contra he
      unfold finishStatus at h
      rw [if_neg (by simp), if_neg he] at h
      split at h <;> simp at h
    · intro h
      subst h
      unfold finishStatus
      simp
  · intro h1 h2
    unfold finishStatus
    rw [if_neg (by simp), if_neg (Nat.pos_iff_ne_zero.mp h1), if_pos h2]
  · intro h1 h2
    unfold finishStatus
    rw [if_neg (by simp), if_neg (Nat.pos_iff_ne_zero.mp h1), if_neg (by omega)]
  · unfold finishStatus
    simp

/-- Claim C4 witness: one error out of three processed items ends the
operation `partial` with playlist status `partial`. -/
theorem C4_completion_status_witness :
    finishStatus 1 3 false = (.partialSuccess, .partialSuccess) :=
  (C4_completion_status 1 3).2.1 (by decide) (by decide)

/-- Claim C5: whenever some candidate's description/metadata embeds the
source-video id verbatim, `findBestMatch` selects such a candidate with
method `exact_id` and confidence 1, whatever the fuzzy score function and
threshold are — exact-identifier matches take precedence over any fuzzy
result. -/
theorem C5_exact_id_precedence (score : ItemMeta → Candidate → ℚ)
    (threshold : ℚ) (item : ItemMeta) (cands : List Candidate)
    (h : ∃ c ∈ cands, embedsSourceId item c = true) :
    ∃ c, findBestMatch score threshold item cands =
        some { track := c, confidence := 1, method := .exact_id }
      ∧ c ∈ cands ∧ embedsSourceId item c = true := by
  have hsome : (cands.find? fun c => embedsSourceId item c).isSome :=
    List.find?_isSome.mpr h
  rcases Option.isSome_iff_exists.mp hsome with ⟨c, hc⟩
  refine ⟨c, ?_, List.mem_of_find?_eq_some hc, List.find?_some hc⟩
  unfold findBestMatch
  rw [hc]

/-- Claim C5 witness: on the concrete item and candidates (where candidate
t2 embeds the video id), the matcher returns method `exact_id` with
confidence 1 even under a zero fuzzy score. -/
theorem C5_exact_id_precedence_witness :
    (findBestMatch (fun _ _ => 0) defaultThreshold itemW candsW).map
        (fun r => (r.confidence, r.method)) = some (1, .exact_id) := by
  rcases C5_exact_id_precedence (fun _ _ => 0) defaultThreshold itemW candsW
    (by decide) with ⟨c, heq, -, -⟩
  rw [heq]
  rfl

/-- Claim C8: a `retry` trigger is permitted exactly when the history has a
most recent operation whose status is `failed` or `partial`; such a status
is in particular not `running`, so no still-running operation admits a
retry. -/
theorem C8_retry_policy (history : List SyncOperation) :
    retryPermitted history = true ↔
      ∃ op, history.head? = some op
        ∧ (op.status = .failed ∨ op.status = .partialSuccess)
        ∧ op.status ≠ .running := by
  cases history with
  | nil =>
    rw [show retryPermitted [] = false from rfl]
    simp
  | cons op rest =>
    rw [show retryPermitted (op :: rest) =
      ((op.status == OpStatus.failed || op.status == OpStatus.partialSuccess)
        && !(op.status == OpStatus.running)) from rfl]
    simp only [List.head?_cons, Option.some.injEq]
    constructor
    · intro h
      simp only [Bool.and_eq_true, Bool.or_eq_true, beq_iff_eq,
        Bool.not_eq_true', beq_eq_false_iff_ne] at h
      exact ⟨op, rfl, h.1, h.2⟩
    · rintro ⟨op', heq, hfp, hnr⟩
      subst heq
      simp only [Bool.and_eq_true, Bool.or_eq_true, beq_iff_eq,
        Bool.not_eq_true', beq_eq_false_iff_ne]
      exact ⟨hfp, hnr⟩

/-- Claim C8 witness: a history whose most recent operation failed permits a
retry. -/
theorem C8_retry_policy_witness : retryPermitted [opFailedW] = true :=
  (C8_retry_policy [opFailedW]).mpr ⟨opFailedW, rfl, Or.inl rfl, by decide⟩

theorem orchStatus_ne_idle (ev : OrchEvent) : orchStatus ev ≠ SyncStatus.idle := by
  cases ev with
  | start => simp [orchStatus]
  | finish e t pf =>
    cases pf with
    | true => simp [orchStatus, finishStatus]
    | false =>
      by_cases h0 : e = 0
      · simp [orchStatus, finishStatus, h0]
      · by_cases hlt : e < t
        · simp [orchStatus, finishStatus, h0, hlt]
        · simp [orchStatus, finishStatus, h0, hlt]

/-- Claim C10: a playlist created without explicit statuses starts with
`sync_status = idle` and `source_status = active`; and since every
Orchestrator write is `syncing` or a completion outcome
(`success`/`partial`/`failed`), `idle` never reappears once the
Orchestrator has written any status. -/
theorem C10_idle_only_initial :
    (∀ id user title yt sp,
        (mkPlaylist id user title yt sp).sync_status = SyncStatus.idle
        ∧ (mkPlaylist id user title yt sp).source_status = SourceStatus.active)
    ∧ (∀ ev, orchStatus ev ≠ SyncStatus.idle)
    ∧ (∀ (p : Playlist) (ev : OrchEvent) (evs : List OrchEvent),
        ((evs.foldl applyOrch (applyOrch p ev)).sync_status ≠ SyncStatus.idle)) := by
  refine ⟨fun id user title yt sp => ⟨rfl, rfl⟩, orchStatus_ne_idle, ?_⟩
  intro p ev evs
  induction evs generalizing p ev with
  | nil => exact orchStatus_ne_idle ev
  | cons e2 rest ih =>
    rw [List.foldl_cons]
    exact ih (applyOrch p ev) e2

/-- Claim C10 witness: after a start and a successful finish, the concrete
playlist's status is not `idle`. -/
theorem C10_idle_only_initial_witness :
    (([OrchEvent.finish 0 3 false].foldl applyOrch
        (applyOrch (mkPlaylist 1 1 "Road Trip" none none) OrchEvent.start)).sync_status
      ≠ SyncStatus.idle) :=
  C10_idle_only_initial.2.2 (mkPlaylist 1 1 "Road Trip" none none)
    OrchEvent.start [OrchEvent.finish 0 3 false]
